import Mathlib

/-!
Shallow embedding of `src/djsh.c` (a small line-oriented shell) and proofs
about it.  The embedding follows the C source function by function:

* tokenization via `strtok` with delimiters " \t\n\r"  → `tokensBy isWS`
* the newline / carriage-return stripping (lines 116-120) → `stripLine`
* the blank-line test (lines 122-124, with its `&`-precedence quirk) → `isBlank`
* the bounded history (lines 107-161, 50-entry FIFO list) → `histAdd`
* the argument-parsing loop (lines 163-216) → `parseGo`
* output redirection (lines 176-199, 319-326) → `engage1`, `engageAll`, `teardown`
* built-in dispatch and process launch (lines 221-318) → `dispatch`, `childRun`
* `checkPath` (lines 364-397) → `checkPath`
* `getCommandFromPath` (lines 331-357) → `getCommandFromPath`
* one whole loop iteration (read line → history → parse → dispatch →
  redirect teardown) → `stepLine`

Filesystem and OS outcomes (`access`, `exec*`, `open`, `dup2`, `chdir`) are
parameters collected in `Env`; observable actions are recorded as `Ev` events.
-/

namespace Djsh

/-- The stdout destination: the terminal, or a file opened for redirection. -/
inductive Target where
  | term : Target
  | file : String → Target
deriving DecidableEq, Repr

/-- Observable events of one loop iteration.  `err` is the single fixed error
message written by `djsh_error`; `out t s` is a `write(STDOUT_FILENO, s, _)`
performed while the process-wide stdout points at `t`; `forked` is a
successful `fork()`; `exec p argv` is a successful image replacement with
file `p` and argument vector `argv`; `exitc n` is `exit(n)` inside the child;
`chdirTo d` is a successful `chdir(d)`. -/
inductive Ev where
  | err : Ev
  | out : Target → String → Ev
  | chdirTo : String → Ev
  | forked : Ev
  | exec : String → List String → Ev
  | exitc : Nat → Ev
deriving DecidableEq, Repr

/-- OS oracles: `accessX p` is `access(p, X_OK) == 0`; `execOk p` is whether
replacing the image with file `p` succeeds; `openOk f` is whether
`open(f, O_WRONLY|O_CREAT|O_TRUNC)` succeeds; `dup2Ok` whether the
`dup2(output_fd, STDOUT_FILENO)` swap succeeds; `chdirOk d` whether
`chdir(d)` succeeds; `execType` is the startup mode 'l' (execlp) or 'v'
(execvp). -/
structure Env where
  accessX : String → Bool
  execOk : String → Bool
  openOk : String → Bool
  dup2Ok : Bool
  chdirOk : String → Bool
  execType : Char

/-- State of the redirection machinery: `target` is where fd 1 currently
points, `saved` is what `temp_fd` (the `dup` of stdout taken at engagement
time) refers to, and `flag` is the C variable `redirect` — note the C code
never resets it to 0 once set. -/
structure Redir where
  target : Target
  saved : Target
  flag : Bool
deriving DecidableEq, Repr

/-- The parent shell's process-wide state: the `path` variable (NULL when
never set), the history list (head oldest, as the linked list from head to
tail), and the redirection state. -/
structure Shell where
  path : Option String
  hist : List String
  redir : Redir
deriving DecidableEq, Repr

/-- Initial state: empty path, empty history, stdout at the terminal. -/
def shell0 : Shell := ⟨none, [], ⟨Target.term, Target.term, false⟩⟩

/-- The whitespace delimiter set " \t\n\r" passed to `strtok` in `main`. -/
def isWS (c : Char) : Bool := c = ' ' || c = '\t' || c = '\n' || c = '\r'

/-- `strtok`-style field splitting: maximal runs of non-delimiter characters,
in order; empty fields never occur.  `cur` accumulates the current token in
reverse. -/
def tokensByAux (p : Char → Bool) : List Char → List Char → List String
  | [], cur => if cur.isEmpty then [] else [String.mk cur.reverse]
  | c :: cs, cur =>
    if p c then
      if cur.isEmpty then tokensByAux p cs []
      else String.mk cur.reverse :: tokensByAux p cs []
    else tokensByAux p cs (c :: cur)

def tokensBy (p : Char → Bool) (s : String) : List String := tokensByAux p s.toList []

/-- djsh.c lines 116-120: if the line ends in a newline, the newline is
overwritten with NUL, and a carriage return immediately before it is also
removed. -/
def stripLine (raw : String) : String :=
  match raw.toList.reverse with
  | '\n' :: '\r' :: rest => String.mk rest.reverse
  | '\n' :: rest => String.mk rest.reverse
  | _ => raw

/-- djsh.c lines 122-124: the blank-input test.  Because `==` binds tighter
than `&` in C, `nread == 1 & line[0] == '\0'` parses as
`nread == (1 & (line[0] == '\0'))`, i.e. `nread == 1` when the stripped line
is empty and `nread == 0` otherwise.  The third disjunct compares the
already-stripped line against "\r\n". -/
def isBlank (raw : String) : Bool :=
  let s := stripLine raw
  raw.length == 0 || raw.length == (if s.length == 0 then 1 else 0) || s == "\r\n"

/-- What one input line is recorded to history as (djsh.c lines 122-139):
a single space for blank input, otherwise the stripped line. -/
def recordOf (raw : String) : String :=
  if isBlank raw then " " else stripLine raw

/-- djsh.c lines 141-161: append the record at the tail; if there were
already 50 entries, additionally evict the head. -/
def histAdd (h : List String) (s : String) : List String :=
  if h.length < 50 then h ++ [s] else (h ++ [s]).drop 1

/-- `atoi`'s digit accumulation: consume decimal digits until the first
non-digit. -/
def atoiDigits : List Char → Nat → Nat
  | [], acc => acc
  | c :: cs, acc => if c.isDigit then atoiDigits cs (acc * 10 + (c.toNat - 48)) else acc

/-- C `isspace` set used by `atoi`. -/
def isSpaceC (c : Char) : Bool :=
  c = ' ' || c = '\t' || c = '\n' || c = '\x0b' || c = '\x0c' || c = '\r'

/-- The C library `atoi`: skip leading whitespace, optional sign, then the
longest digit run; a string with no leading digits yields 0. -/
def atoiM (s : String) : Int :=
  match s.toList.dropWhile isSpaceC with
  | '-' :: rest => -(atoiDigits rest 0 : Int)
  | '+' :: rest => (atoiDigits rest 0 : Int)
  | cs => (atoiDigits cs 0 : Int)

/-- checkPath lines 377-385: copy the entry, append '/' unless the entry
already ends in one, then append the command. -/
def candidate (entry cmd : String) : String :=
  match entry.toList.reverse with
  | '/' :: _ => entry ++ cmd
  | _ => entry ++ "/" ++ cmd

/-- The while loop of `checkPath` (lines 369-393) over the colon-separated
entries: return the first candidate with `access(_, X_OK) == 0`.  The C
function returns the string literal "0" when nothing is found; we model that
sentinel as `none` here and reinstate the literal at the use site
(`childRun`). -/
def checkPathGo (env : Env) (cmd : String) : List String → Option String
  | [] => none
  | e :: es =>
    if env.accessX (candidate e cmd) then some (candidate e cmd)
    else checkPathGo env cmd es

/-- checkPath (djsh.c lines 364-397): `strtok(path, ":")` tokenization (which
skips empty fields) followed by the first-match scan. -/
def checkPath (env : Env) (cmd pathStr : String) : Option String :=
  checkPathGo env cmd (tokensBy (fun c => c = ':') pathStr)

/-- The child's resolution step, line 294: `checkPath(args[0], path)`.  When
the shell's `path` variable is still NULL, the C call passes NULL and
`strtok(NULL, ":")` resumes on the already-exhausted input-line buffer,
yielding no token for the fully-consumed lines used in this development, so
no candidate is found. -/
def resolveOf (env : Env) (path : Option String) (cmd : String) : Option String :=
  match path with
  | some p => checkPath env cmd p
  | none => none

/-- getCommandFromPath (djsh.c lines 331-357): the substring after the last
'/', or the whole string if it has no slash. -/
def getCommandFromPath (s : String) : String :=
  if s.toList.contains '/' then
    String.mk ((s.toList.reverse.takeWhile (fun c => c ≠ '/')).reverse)
  else s

/-- The `argv` slots (djsh.c line 62: `char* args[MAX_ARGS+2]`, MAX_ARGS = 4).
Slots `a4` and `a5` are never assigned a token by the parse loop (tokens are
stored only under `i < MAX_ARGS`), so they are always `none`. -/
structure Args where
  a0 : Option String
  a1 : Option String
  a2 : Option String
  a3 : Option String
  a4 : Option String
  a5 : Option String
deriving DecidableEq, Repr

/-- Result of the argument-parsing loop: the six `args` slots in order, the
redirection filenames captured after each ">" token (in order, `none` when
`strtok` had no further token), whether `djsh_error` fired for a missing
first token (line 211-213), and the tokens left unconsumed by the loop
(available to the later `strtok(NULL, whiteSpace)` call of the `exit`
built-in, line 225). -/
structure POut where
  args : List (Option String)
  redirs : List (Option String)
  err0 : Bool
  rest : List String
deriving DecidableEq, Repr

/-- djsh.c lines 165-216, the `for (int i=0; i < MAX_ARGS+2; i++)` loop.
`fuel` counts the remaining iterations, so the loop index is `i = 6 - fuel`;
the store condition `i < MAX_ARGS` is `fuel ≥ 3` at entry to an iteration
(here tested as `fuel ≥ 2` on the decremented value), and the
missing-first-token error `i == 0` is `fuel = 5` in the exhausted-input
case.  A ">" token consumes the following token as the redirection filename;
at `i ≥ MAX_ARGS` it breaks out of the loop (line 198). -/
def parseGo : Nat → List String → POut
  | 0, toks => ⟨[], [], false, toks⟩
  | fuel + 1, [] => ⟨List.replicate (fuel + 1) none, [], fuel == 5, []⟩
  | fuel + 1, t :: ts =>
    if t = ">" then
      match ts with
      | [] =>
        if fuel ≥ 2 then
          let r := parseGo fuel []
          ⟨none :: r.args, none :: r.redirs, r.err0, r.rest⟩
        else ⟨List.replicate (fuel + 1) none, [none], false, []⟩
      | f :: ts2 =>
        if fuel ≥ 2 then
          let r := parseGo fuel ts2
          ⟨none :: r.args, some f :: r.redirs, r.err0, r.rest⟩
        else ⟨List.replicate (fuel + 1) none, [some f], false, ts2⟩
    else
      if fuel ≥ 2 then
        let r := parseGo fuel ts
        ⟨some t :: r.args, r.redirs, r.err0, r.rest⟩
      else
        let r := parseGo fuel ts
        ⟨none :: r.args, r.redirs, r.err0, r.rest⟩

/-- View the six-element slot list as the `Args` record. -/
def toArgs : List (Option String) → Args
  | a0 :: a1 :: a2 :: a3 :: a4 :: a5 :: _ => ⟨a0, a1, a2, a3, a4, a5⟩
  | _ => ⟨none, none, none, none, none, none⟩

/-- Parse one already-read line: strip the terminator, tokenize, run the
argument loop. -/
def parseL (raw : String) : POut := parseGo 6 (tokensBy isWS (stripLine raw))

def argsOf (raw : String) : Args := toArgs (parseL raw).args

/-- djsh.c lines 176-199: handling of one ">" token.  `open` the filename
(error if it fails, or if `strtok` produced no filename at all, in which case
`open(NULL, ...)` fails); on success save the current stdout via
`temp_fd = dup(STDOUT_FILENO)` and swap with `dup2`; only a successful swap
sets `redirect = 1`. -/
def engage1 (env : Env) (r : Redir) (fn : Option String) : Redir × List Ev :=
  match fn with
  | none => (r, [Ev.err])
  | some f =>
    if env.openOk f then
      if env.dup2Ok then (⟨Target.file f, r.target, true⟩, [])
      else ({ r with saved := r.target }, [Ev.err])
    else (r, [Ev.err])

/-- All ">" engagements of one line, in the order the parse loop met them. -/
def engageAll (env : Env) : Redir → List (Option String) → Redir × List Ev
  | r, [] => (r, [])
  | r, fn :: fns =>
    let s1 := engage1 env r fn
    let s2 := engageAll env s1.1 fns
    (s2.1, s1.2 ++ s2.2)

/-- djsh.c lines 319-326: if `redirect == 1`, point stdout back at what
`temp_fd` saved.  The `redirect` flag itself is never cleared by the C
code. -/
def teardown (r : Redir) : Redir :=
  if r.flag then { r with target := r.saved } else r

/-- The first tokens recognized by the built-in dispatch chain. -/
def isBuiltin (s : String) : Bool :=
  s == "exit" || s == "cd" || s == "path" || s == "history"

/-- djsh.c lines 279-284: one `write` of the entry, one `write` of "\n", per
remaining history node. -/
def histPrint (t : Target) : List String → List Ev
  | [] => []
  | e :: es => Ev.out t e :: Ev.out t "\n" :: histPrint t es

/-- Arguments `args[1..4]` up to the first NULL — both the variadic `execlp`
list and the `execvp` vector stop at the first NULL slot. -/
def takeUntilNone : List (Option String) → List String
  | [] => []
  | none :: _ => []
  | some s :: rest => s :: takeUntilNone rest

/-- The forked child, djsh.c lines 293-313.  `checkPath` returns the string
literal "0" (not NULL) when nothing is found, so the `cmdPath == 0` test on
line 295 never fires and the child always proceeds to `exec*` with either
the resolved path or "0"; a failed `exec*` reports the error and exits the
child with status 1.  In execlp mode the displayed name is
`getCommandFromPath(args[0])`; in execvp mode it is `args[0]` itself. -/
def childRun (env : Env) (path : Option String) (a0 : String)
    (restArgs : List (Option String)) : List Ev :=
  let cmdPath := (resolveOf env path a0).getD "0"
  let argv :=
    (if env.execType = 'l' then getCommandFromPath a0 else a0) :: takeUntilNone restArgs
  if env.execOk cmdPath then [Ev.exec cmdPath argv]
  else [Ev.err, Ev.exitc 1]

/-- The outcome of the command-dispatch section: the (possibly replaced)
`path` variable, the parent-side events, the events of a forked child (when
one was created), the exit status when the whole process terminated, and
whether a `continue` skipped the rest of the iteration — including the
redirect teardown (the `args[0] == NULL` continue at line 218-219 and the
bad-history-count continue at line 269). -/
structure DOut where
  path : Option String
  evs : List Ev
  child : Option (List Ev)
  exited : Option Nat
  skipTd : Bool
deriving DecidableEq, Repr

/-- djsh.c lines 221-318: the built-in chain over `args[0]`, falling through
to fork + child launch for anything else.  `hist2` is the history list with
the current line already appended (the append happens before parsing);
`t` is where stdout points during the dispatch; `rest` is what
`strtok(NULL, whiteSpace)` can still deliver (used by `exit`). -/
def dispatch (env : Env) (path : Option String) (hist2 : List String) (t : Target)
    (a0 a1 a2 a3 a4 : Option String) (rest : List String) : DOut :=
  match a0 with
  | none => ⟨path, [], none, none, true⟩
  | some c =>
    if c = "exit" then
      if rest.isEmpty then ⟨path, [], none, some 0, false⟩
      else ⟨path, [Ev.err], none, none, false⟩
    else if c = "cd" then
      match a1, a2 with
      | some d, none =>
        if env.chdirOk d then ⟨path, [Ev.chdirTo d], none, none, false⟩
        else ⟨path, [Ev.err], none, none, false⟩
      | _, _ => ⟨path, [Ev.err], none, none, false⟩
    else if c = "path" then
      match a1 with
      | none =>
        ⟨path, (match path with
                | some p => [Ev.out t p]
                | none => []) ++ [Ev.out t "\n"], none, none, false⟩
      | some s => ⟨some s, [], none, none, false⟩
    else if c = "history" then
      match a1 with
      | none => ⟨path, histPrint t hist2, none, none, false⟩
      | some s =>
        let n := atoiM s
        if n < 0 ∨ n > 50 then ⟨path, [Ev.err], none, none, true⟩
        else ⟨path, histPrint t (hist2.drop (hist2.length - n.toNat)), none, none, false⟩
    else
      ⟨path, [Ev.forked], some (childRun env path c [a1, a2, a3, a4]), none, false⟩

/-- Result of one whole loop iteration: the new shell state, the parent-side
events, the child's events when a child was forked, the exit status when the
process terminated during the iteration, and where stdout pointed during the
dispatch step. -/
structure IterOut where
  st : Shell
  evs : List Ev
  child : Option (List Ev)
  exited : Option Nat
  dispTarget : Target
deriving Repr

/-- The dispatch step of one iteration on state `st` and line `raw`: the
history with the line already appended, the stdout target after any ">"
engagements, the six parsed slots, and the leftover tokens. -/
def dispatchOf (env : Env) (st : Shell) (raw : String) : DOut :=
  dispatch env st.path (histAdd st.hist (recordOf raw))
    (engageAll env st.redir (parseL raw).redirs).1.target
    (argsOf raw).a0 (argsOf raw).a1 (argsOf raw).a2 (argsOf raw).a3 (argsOf raw).a4
    (parseL raw).rest

/-- One iteration of the main `while(1)` loop of djsh.c on a successfully
read line `raw`: record the line to history; run the parse loop (engaging
any ">" redirections as they are met); dispatch; then, unless the iteration
was left by a `continue` or the process exited, run the redirect
teardown. -/
def stepLine (env : Env) (st : Shell) (raw : String) : IterOut :=
  ⟨⟨(dispatchOf env st raw).path, histAdd st.hist (recordOf raw),
      if (dispatchOf env st raw).skipTd || (dispatchOf env st raw).exited.isSome
      then (engageAll env st.redir (parseL raw).redirs).1
      else teardown (engageAll env st.redir (parseL raw).redirs).1⟩,
    (engageAll env st.redir (parseL raw).redirs).2
      ++ (if (parseL raw).err0 then [Ev.err] else [])
      ++ (dispatchOf env st raw).evs,
    (dispatchOf env st raw).child, (dispatchOf env st raw).exited,
    (engageAll env st.redir (parseL raw).redirs).1.target⟩

/-- Fold the whole shell state over a sequence of input lines. -/
def runLines (env : Env) (st : Shell) (lines : List String) : Shell :=
  lines.foldl (fun s raw => (stepLine env s raw).st) st

/-- The strings of the `out` events, in order (what got written to stdout,
wherever it pointed). -/
def outTexts : List Ev → List String
  | [] => []
  | Ev.out _ s :: es => s :: outTexts es
  | _ :: es => outTexts es

/-- Interleave a newline after every entry, as `history` prints. -/
def seqNL : List String → List String
  | [] => []
  | e :: es => e :: "\n" :: seqNL es

/-- An environment in which every OS probe fails. -/
def env0 : Env := ⟨fun _ => false, fun _ => false, fun _ => false, false, fun _ => false, 'l'⟩

/-- An execvp-mode environment where exactly "/bin/foo" exists and is
executable, and redirection file opens succeed. -/
def env1v : Env :=
  ⟨fun s => s == "/bin/foo", fun s => s == "/bin/foo", fun _ => true, true, fun _ => false, 'v'⟩

/-- An environment where no command resolves but file opens and the stdout
swap succeed. -/
def env2 : Env := ⟨fun _ => false, fun _ => false, fun _ => true, true, fun _ => false, 'v'⟩

/-- A state whose path variable has been set to "/bin". -/
def stBin : Shell := ⟨some "/bin", [], ⟨Target.term, Target.term, false⟩⟩

/-- A state whose path variable has been set to "/p". -/
def stP : Shell := ⟨some "/p", [], ⟨Target.term, Target.term, false⟩⟩

/-- An environment in which exactly "/bin/ls" is executable (the spec's
first-match example: `ls` present only under "/bin"). -/
def envLs : Env :=
  ⟨fun s => s == "/bin/ls", fun s => s == "/bin/ls", fun _ => false, false, fun _ => false, 'l'⟩

/-- A ">" engagement that fails: either `strtok` produced no filename (so
`open(NULL, ...)` fails), or the `open` fails, or the `dup2` swap fails. -/
def engageFailing (env : Env) : Option String → Bool
  | none => true
  | some f => !env.openOk f || !env.dup2Ok

/-- C1: the line `foo a1 a2 a3 a4` has five non-redirection tokens (more than
four).  The parse loop (line 200: `else if (i < MAX_ARGS)`) stores tokens only
into `args[0..3]`, so the slot `args[4]` — which the `execlp` call on line 300
explicitly passes — is never filled, and the launched program observes
argv = [foo, a1, a2, a3]: the fourth argument `a4` is silently dropped and
only three arguments follow the program name, not four as the claim
states. -/
theorem c1_fourth_argument_dropped :
    (argsOf "foo a1 a2 a3 a4\n").a4 = none
    ∧ (stepLine env1v stBin "foo a1 a2 a3 a4\n").child
        = some [Ev.exec "/bin/foo" ["foo", "a1", "a2", "a3"]]
    ∧ (stepLine env1v stBin "foo a1 a2 a3 a4\n").evs = [Ev.forked] := by
  decide

/-- C2: on the line `history 99 > f` the redirection is engaged during
parsing, then the history built-in rejects 99 and executes `continue`
(line 269), skipping the teardown at lines 319-326: the iteration that
engaged redirection does not restore stdout even though the dispatched
command errored, and the following `path` line — with no redirection of its
own — writes its output into the file "f" instead of the terminal. -/
theorem c2_redirect_leaks_after_history_error :
    (stepLine env2 stP "history 99 > f\n").st.redir
        = ⟨Target.file "f", Target.term, true⟩
    ∧ Ev.err ∈ (stepLine env2 stP "history 99 > f\n").evs
    ∧ (stepLine env2 (stepLine env2 stP "history 99 > f\n").st "path\n").evs
        = [Ev.out (Target.file "f") "/p", Ev.out (Target.file "f") "\n"] := by
  decide

/-- C3: `exit` alone terminates with status 0 as claimed, but `exit stuff`
ALSO terminates with status 0 and reports no error: the extra-argument check
on line 225 calls `strtok(NULL, whiteSpace)` after the parse loop has already
consumed up to six tokens of the line, so for this two-token line it returns
NULL and the `exit(0)` branch runs.  (Only lines with at least seven tokens
make the check fire.) -/
theorem c3_exit_with_extra_arg_still_exits :
    (stepLine env0 shell0 "exit\n").exited = some 0
    ∧ (stepLine env0 shell0 "exit stuff\n").exited = some 0
    ∧ (stepLine env0 shell0 "exit stuff\n").evs = [] := by
  decide

/-- C4 counterexample: for the unresolvable command `nosuch` (search path
"/bin" contains no executable) the shell still performs process creation:
`fork()` happens on line 287 before any resolution, resolution runs inside
the child, and the child reports the error (via the failing exec of the "0"
sentinel returned by `checkPath`) and exits with status 1.  The claim's
"performs no process creation" is false. -/
theorem c4_fork_despite_notfound :
    (stepLine env0 stBin "nosuch\n").evs = [Ev.forked]
    ∧ (stepLine env0 stBin "nosuch\n").child = some [Ev.err, Ev.exitc 1]
    ∧ (stepLine env0 stBin "nosuch\n").exited = none := by
  decide

/-- C5 counterexample: `history abc` with a non-numeric argument reports NO
error and prints nothing: `atoi("abc")` is 0, which passes the `[0,50]` range
check on line 267, and the skip loop then skips all entries.  The claim says
a non-numeric argument reports an error. -/
theorem c5_nonnumeric_reports_no_error :
    (stepLine env0 ⟨none, ["ls", "pwd"], ⟨Target.term, Target.term, false⟩⟩
        "history abc\n").evs = []
    ∧ (stepLine env0 ⟨none, ["ls", "pwd"], ⟨Target.term, Target.term, false⟩⟩
        "history abc\n").exited = none := by
  decide

/-- C8 counterexample: an empty input line is recorded to history as a
single-space placeholder and produces zero tokens, but the dispatch is NOT
silent: the parse loop's `i == 0` branch (lines 211-213) calls `djsh_error`,
so the fixed error message is written before the loop continues. -/
theorem c8_empty_line_not_silent :
    (stepLine env0 shell0 "\n").evs = [Ev.err]
    ∧ (stepLine env0 shell0 "\n").st.hist = [" "] := by
  decide

/-! Projection lemmas for `stepLine`, all definitional. -/

theorem stepLine_st_hist (env : Env) (st : Shell) (raw : String) :
    (stepLine env st raw).st.hist = histAdd st.hist (recordOf raw) := rfl

theorem stepLine_st_path (env : Env) (st : Shell) (raw : String) :
    (stepLine env st raw).st.path = (dispatchOf env st raw).path := rfl

theorem stepLine_child (env : Env) (st : Shell) (raw : String) :
    (stepLine env st raw).child = (dispatchOf env st raw).child := rfl

theorem stepLine_exited (env : Env) (st : Shell) (raw : String) :
    (stepLine env st raw).exited = (dispatchOf env st raw).exited := rfl

theorem stepLine_dispTarget (env : Env) (st : Shell) (raw : String) :
    (stepLine env st raw).dispTarget
      = (engageAll env st.redir (parseL raw).redirs).1.target := rfl

theorem stepLine_evs (env : Env) (st : Shell) (raw : String) :
    (stepLine env st raw).evs
      = (engageAll env st.redir (parseL raw).redirs).2
          ++ (if (parseL raw).err0 then [Ev.err] else [])
          ++ (dispatchOf env st raw).evs := rfl

theorem stepLine_st_redir (env : Env) (st : Shell) (raw : String) :
    (stepLine env st raw).st.redir
      = if (dispatchOf env st raw).skipTd || (dispatchOf env st raw).exited.isSome
        then (engageAll env st.redir (parseL raw).redirs).1
        else teardown (engageAll env st.redir (parseL raw).redirs).1 := rfl

/-- A `history` line with no argument prints the whole (just-appended)
history list to the current stdout target. -/
theorem stepLine_history_noarg (env : Env) (st : Shell) :
    (stepLine env st "history\n").evs
      = histPrint st.redir.target (histAdd st.hist "history") := rfl

/-- The `checkPath` scan is exactly first-match search over the candidate
list. -/
theorem checkPathGo_eq_find (env : Env) (cmd : String) (toks : List String) :
    checkPathGo env cmd toks
      = (toks.map (fun e => candidate e cmd)).find? env.accessX := by
  induction toks with
  | nil => rfl
  | cons e es ih =>
    rw [List.map_cons, List.find?_cons]
    cases h : env.accessX (candidate e cmd)
    · simp [checkPathGo, h, ih]
    · simp [checkPathGo, h]

theorem histAdd_length_le (h : List String) (s : String) (hle : h.length ≤ 50) :
    (histAdd h s).length ≤ 50 := by
  rw [histAdd]
  split
  · simp [List.length_append]; omega
  · simp [List.length_drop, List.length_append]; omega

/-- Folding `histAdd` keeps exactly the last 50 records. -/
theorem foldl_histAdd (recs : List String) :
    ∀ h : List String, h.length ≤ 50 →
      recs.foldl histAdd h = (h ++ recs).drop ((h ++ recs).length - 50) := by
  induction recs with
  | nil =>
    intro h hle
    simp [Nat.sub_eq_zero_of_le hle]
  | cons r rs ih =>
    intro h hle
    rw [List.foldl_cons, ih (histAdd h r) (histAdd_length_le h r hle)]
    by_cases hlt : h.length < 50
    · have e1 : histAdd h r = h ++ [r] := by rw [histAdd, if_pos hlt]
      rw [e1, List.append_assoc]
      rfl
    · have h50 : h.length = 50 := by omega
      have e1 : histAdd h r = (h ++ [r]).drop 1 := by rw [histAdd, if_neg hlt]
      have e2 : (h ++ [r]).drop 1 ++ rs = (h ++ r :: rs).drop 1 := by
        rw [List.drop_append_eq_append_drop, List.drop_append_eq_append_drop]
        simp [h50]
      rw [e1, e2, List.drop_drop]
      congr 1
      simp [List.length_drop, List.length_append, h50]
      omega

theorem runLines_hist (env : Env) (lines : List String) :
    ∀ st : Shell, (runLines env st lines).hist
      = lines.foldl (fun h raw => histAdd h (recordOf raw)) st.hist := by
  induction lines with
  | nil => intro st; rfl
  | cons l ls ih =>
    intro st
    show (runLines env ((stepLine env st l).st) ls).hist = _
    rw [ih, stepLine_st_hist]
    rfl

/-- From the empty start state, the history after any line sequence is the
last ≤50 records. -/
theorem runHist_drop (env : Env) (lines : List String) :
    (runLines env shell0 lines).hist
      = (lines.map recordOf).drop ((lines.map recordOf).length - 50) := by
  rw [runLines_hist env lines shell0]
  show lines.foldl (fun h raw => histAdd h (recordOf raw)) [] = _
  rw [← List.foldl_map recordOf histAdd lines []]
  rw [foldl_histAdd (lines.map recordOf) [] (by simp)]
  simp

theorem outTexts_histPrint (t : Target) (l : List String) :
    outTexts (histPrint t l) = seqNL l := by
  induction l with
  | nil => rfl
  | cons e es ih => simp [histPrint, outTexts, seqNL, ih]

/-- Any first token that is not one of the four built-ins falls through to
`fork` plus `childRun`; the parent's `path` is untouched. -/
theorem dispatch_external (env : Env) (path : Option String) (hist2 : List String)
    (t : Target) (a1 a2 a3 a4 : Option String) (rest : List String) (c : String)
    (hb : isBuiltin c = false) :
    dispatch env path hist2 t (some c) a1 a2 a3 a4 rest
      = ⟨path, [Ev.forked], some (childRun env path c [a1, a2, a3, a4]), none, false⟩ := by
  have h1 : ¬ c = "exit" := by intro h; subst h; simp [isBuiltin] at hb
  have h2 : ¬ c = "cd" := by intro h; subst h; simp [isBuiltin] at hb
  have h3 : ¬ c = "path" := by intro h; subst h; simp [isBuiltin] at hb
  have h4 : ¬ c = "history" := by intro h; subst h; simp [isBuiltin] at hb
  simp [dispatch, h1, h2, h3, h4]

theorem dispatch_history_some (env : Env) (path : Option String) (hist2 : List String)
    (t : Target) (s : String) (a2 a3 a4 : Option String) (rest : List String) :
    dispatch env path hist2 t (some "history") (some s) a2 a3 a4 rest
      = if atoiM s < 0 ∨ atoiM s > 50 then ⟨path, [Ev.err], none, none, true⟩
        else ⟨path, histPrint t (hist2.drop (hist2.length - (atoiM s).toNat)),
                none, none, false⟩ := rfl

theorem engage1_fail (env : Env) (r : Redir) (fn : Option String)
    (hr : r.saved = r.target) (h : engageFailing env fn = true) :
    engage1 env r fn = (r, [Ev.err]) := by
  cases fn with
  | none => rfl
  | some f =>
    simp only [engageFailing, Bool.or_eq_true, Bool.not_eq_true'] at h
    cases ho : env.openOk f with
    | false => simp [engage1, ho]
    | true =>
      have hd : env.dup2Ok = false := by
        rcases h with h | h
        · rw [ho] at h; exact absurd h (by simp)
        · exact h
      cases r with
      | mk tg sv fl =>
        simp only [Redir.saved, Redir.target] at hr
        subst hr
        simp [engage1, ho, hd]

theorem engageAll_fail (env : Env) (fns : List (Option String)) :
    ∀ r : Redir, r.saved = r.target →
      (∀ fn ∈ fns, engageFailing env fn = true) →
      engageAll env r fns = (r, List.replicate fns.length Ev.err) := by
  induction fns with
  | nil => intro r hr hf; rfl
  | cons fn fns ih =>
    intro r hr hf
    have h1 := engage1_fail env r fn hr (hf fn (List.mem_cons_self fn fns))
    have h2 := ih r hr (fun g hg => hf g (List.mem_cons_of_mem fn hg))
    simp only [engageAll]
    rw [h1]
    dsimp only
    rw [h2]
    simp [List.replicate_succ]

theorem string_len_zero (s : String) (h : s.length = 0) : s = "" := by
  cases s with
  | mk data =>
    simp only [String.length] at h
    rw [List.length_eq_zero] at h
    subst h
    rfl

/-- A line the blank test accepts tokenizes to nothing (the stripped line is
either empty or the leftover "\r\n", both pure whitespace). -/
theorem blank_no_tokens (raw : String) (hb : isBlank raw = true) :
    tokensBy isWS (stripLine raw) = [] := by
  have hemp : ∀ s : String, s.length = 0 → tokensBy isWS s = [] := by
    intro s hs
    rw [string_len_zero s hs]
    rfl
  simp only [isBlank, Bool.or_eq_true, beq_iff_eq] at hb
  rcases hb with (h | h) | h
  · rw [string_len_zero raw h]
    rfl
  · by_cases hz : (stripLine raw).length = 0
    · exact hemp _ hz
    · rw [if_neg hz] at h
      have : raw = "" := string_len_zero raw h
      subst this
      exact hemp _ rfl
  · rw [h]
    rfl

/-- C6: the history log is a bounded FIFO that never exceeds 50 entries;
every line read appends one record, evicting the oldest once 50 are held.
Hence after any line sequence the log is exactly the last min(n,50) records
in entry order; for at most 50 lines it is all of them in the exact order
entered, and a following `history` command prints exactly that log (with the
`history` line itself appended), oldest-first, one per output line. -/
theorem c6_history_bounded_fifo (env : Env) (lines : List String) :
    (runLines env shell0 lines).hist.length ≤ 50
    ∧ (runLines env shell0 lines).hist
        = (lines.map recordOf).drop ((lines.map recordOf).length - 50)
    ∧ (lines.length ≤ 50 → (runLines env shell0 lines).hist = lines.map recordOf)
    ∧ outTexts (stepLine env (runLines env shell0 lines) "history\n").evs
        = seqNL (histAdd (runLines env shell0 lines).hist "history") := by
  have h2 := runHist_drop env lines
  refine ⟨?_, h2, ?_, ?_⟩
  · rw [h2]
    simp [List.length_drop]
    omega
  · intro hle
    rw [h2]
    have hz : (lines.map recordOf).length - 50 = 0 := by
      simp [List.length_map]
      omega
    rw [hz, List.drop_zero]
  · rw [stepLine_history_noarg, outTexts_histPrint]

/-- C6 witness: two lines entered, `history` state holds both in order. -/
theorem c6_witness :
    (runLines env0 shell0 ["echo a\n", "echo b\n"]).hist = ["echo a", "echo b"] :=
  (c6_history_bounded_fifo env0 ["echo a\n", "echo b\n"]).2.2.1 (by decide)

/-- C7: `checkPath` iterates the colon-separated searchPath entries in
order, forms `entry + "/" + command` (the separator inserted only when the
entry does not already end in one — see `candidate`), and returns the first
candidate the `access(_, X_OK)` oracle accepts; it returns NotFound exactly
when no entry's candidate is executable.  The third conjunct is the spec's
example: with path "/usr/bin:/bin" and `ls` executable only under "/bin",
resolution returns "/bin/ls" even though "/usr/bin" comes first. -/
theorem c7_checkpath_first_match (env : Env) (cmd pathStr : String) :
    checkPath env cmd pathStr
      = ((tokensBy (fun c => c = ':') pathStr).map (fun e => candidate e cmd)).find?
          env.accessX
    ∧ (checkPath env cmd pathStr = none ↔
        ∀ e ∈ tokensBy (fun c => c = ':') pathStr, ¬ env.accessX (candidate e cmd))
    ∧ checkPath envLs "ls" "/usr/bin:/bin" = some "/bin/ls" := by
  refine ⟨checkPathGo_eq_find env cmd _, ?_, by decide⟩
  rw [checkPath, checkPathGo_eq_find env cmd, List.find?_eq_none]
  constructor
  · intro h e he
    exact h _ (List.mem_map_of_mem _ he)
  · intro h x hx
    obtain ⟨e, he, hc⟩ := List.mem_map.1 hx
    subst hc
    exact h e he

/-- C7 witness: the first-match equation applied at the spec's example. -/
theorem c7_witness :
    checkPath envLs "ls" "/usr/bin:/bin"
      = ((tokensBy (fun c => c = ':') "/usr/bin:/bin").map
          (fun e => candidate e "ls")).find? envLs.accessX :=
  (c7_checkpath_first_match envLs "ls" "/usr/bin:/bin").1

/-- C10: launching a non-built-in command leaves the parent shell's state
unchanged: the stored searchPath is identical before and after the dispatch,
the history log changes only by the append that precedes dispatch (the
launch itself never touches it), and the parent does not exit — it only
waits.  In the source this holds because `checkPath`'s destructive `strtok`
tokenization of the path string runs only inside the forked child's copy of
memory (lines 293-313). -/
theorem c10_external_launch_preserves_state (env : Env) (st : Shell) (raw : String)
    (c : String) (h0 : (argsOf raw).a0 = some c) (hb : isBuiltin c = false) :
    (stepLine env st raw).st.path = st.path
    ∧ (stepLine env st raw).st.hist = histAdd st.hist (recordOf raw)
    ∧ (stepLine env st raw).exited = none := by
  have hd : dispatchOf env st raw
      = ⟨st.path, [Ev.forked],
          some (childRun env st.path c
            [(argsOf raw).a1, (argsOf raw).a2, (argsOf raw).a3, (argsOf raw).a4]),
          none, false⟩ := by
    rw [dispatchOf, h0]
    exact dispatch_external env st.path (histAdd st.hist (recordOf raw))
      (engageAll env st.redir (parseL raw).redirs).1.target
      (argsOf raw).a1 (argsOf raw).a2 (argsOf raw).a3 (argsOf raw).a4
      (parseL raw).rest c hb
  refine ⟨?_, rfl, ?_⟩
  · rw [stepLine_st_path, hd]
  · rw [stepLine_exited, hd]

/-- C10 witness: launching `ls` from the initial state. -/
theorem c10_witness :
    (stepLine env0 shell0 "ls\n").st.path = shell0.path
    ∧ (stepLine env0 shell0 "ls\n").st.hist = histAdd shell0.hist (recordOf "ls\n")
    ∧ (stepLine env0 shell0 "ls\n").exited = none :=
  c10_external_launch_preserves_state env0 shell0 "ls\n" "ls" (by decide) (by decide)

/-- C9: when every ">" engagement of the line fails (missing filename, open
failure, or dup2 failure), the error is reported, redirection is not engaged
for the iteration — the dispatch step sees stdout still at the terminal and
the redirection state is unchanged afterwards — and a non-built-in command
on the line still executes (a child is still created). -/
theorem c9_failed_redirect_not_engaged (env : Env) (st : Shell) (raw : String)
    (hst : st.redir = ⟨Target.term, Target.term, false⟩)
    (hf : ∀ fn ∈ (parseL raw).redirs, engageFailing env fn = true)
    (hne : (parseL raw).redirs ≠ []) :
    Ev.err ∈ (stepLine env st raw).evs
    ∧ (stepLine env st raw).dispTarget = Target.term
    ∧ (stepLine env st raw).st.redir = ⟨Target.term, Target.term, false⟩
    ∧ (∀ c, (argsOf raw).a0 = some c → isBuiltin c = false →
        (stepLine env st raw).child ≠ none) := by
  have hsv : st.redir.saved = st.redir.target := by rw [hst]
  have hE := engageAll_fail env (parseL raw).redirs st.redir hsv hf
  refine ⟨?_, ?_, ?_, ?_⟩
  · rw [stepLine_evs, hE]
    apply List.mem_append_left
    apply List.mem_append_left
    exact List.mem_replicate.2 ⟨by simpa using hne, rfl⟩
  · rw [stepLine_dispTarget, hE, hst]
  · rw [stepLine_st_redir, hE, hst]
    split
    · rfl
    · rfl
  · intro c h0 hb
    rw [stepLine_child]
    have hd : dispatchOf env st raw
        = ⟨st.path, [Ev.forked],
            some (childRun env st.path c
              [(argsOf raw).a1, (argsOf raw).a2, (argsOf raw).a3, (argsOf raw).a4]),
            none, false⟩ := by
      rw [dispatchOf, h0]
      exact dispatch_external env st.path (histAdd st.hist (recordOf raw))
        (engageAll env st.redir (parseL raw).redirs).1.target
        (argsOf raw).a1 (argsOf raw).a2 (argsOf raw).a3 (argsOf raw).a4
        (parseL raw).rest c hb
    rw [hd]
    simp

/-- C9 witness: `ls a > f` with a failing `open`. -/
theorem c9_witness :
    Ev.err ∈ (stepLine env0 shell0 "ls a > f\n").evs
    ∧ (stepLine env0 shell0 "ls a > f\n").dispTarget = Target.term
    ∧ (stepLine env0 shell0 "ls a > f\n").st.redir = ⟨Target.term, Target.term, false⟩
    ∧ (∀ c, (argsOf "ls a > f\n").a0 = some c → isBuiltin c = false →
        (stepLine env0 shell0 "ls a > f\n").child ≠ none) :=
  c9_failed_redirect_not_engaged env0 shell0 "ls a > f\n" rfl (by decide) (by decide)

/-- C4 amended: for a non-built-in command the shell forks first and
resolution happens inside the child; when resolution fails (and no file "0"
is executable via the environment PATH that `execlp`/`execvp` consult for
the sentinel), the error is reported from the child, no program image is
ever replaced, the child exits with status 1, and the parent continues —
but a process HAS been created. -/
theorem c4_amended_resolution_in_child (env : Env) (path : Option String)
    (hist2 : List String) (t : Target) (a1 a2 a3 a4 : Option String)
    (rest : List String) (c : String) (hb : isBuiltin c = false)
    (hr : resolveOf env path c = none) (he : env.execOk "0" = false) :
    dispatch env path hist2 t (some c) a1 a2 a3 a4 rest
      = ⟨path, [Ev.forked], some [Ev.err, Ev.exitc 1], none, false⟩ := by
  rw [dispatch_external env path hist2 t a1 a2 a3 a4 rest c hb]
  simp [childRun, hr, he]

/-- C4 witness: `nosuch` with searchPath "/bin" and nothing executable. -/
theorem c4_witness :
    dispatch env0 (some "/bin") [] Target.term (some "nosuch") none none none none []
      = ⟨some "/bin", [Ev.forked], some [Ev.err, Ev.exitc 1], none, false⟩ :=
  c4_amended_resolution_in_child env0 (some "/bin") [] Target.term none none none none []
    "nosuch" (by decide) (by decide) rfl

/-- C5 amended: `history <n>` interprets its argument with `atoi` (so a
non-numeric argument yields its leading integer value, 0 if none).  If that
value is outside [0,50] an error is reported and nothing is printed
(and the `continue` skips the rest of the iteration); if it is in [0,50]
exactly the last min(n, length) entries are printed oldest-first, after
skipping max(0, length − n) entries from the front. -/
theorem c5_amended_atoi_range (env : Env) (path : Option String) (hist2 : List String)
    (t : Target) (a : String) (rest : List String) :
    ((atoiM a < 0 ∨ atoiM a > 50) →
      dispatch env path hist2 t (some "history") (some a) none none none rest
        = ⟨path, [Ev.err], none, none, true⟩)
    ∧ (0 ≤ atoiM a → atoiM a ≤ 50 →
      (dispatch env path hist2 t (some "history") (some a) none none none rest).evs
        = histPrint t (hist2.drop (hist2.length - (atoiM a).toNat))
      ∧ (hist2.drop (hist2.length - (atoiM a).toNat)).length
          = min (atoiM a).toNat hist2.length) := by
  constructor
  · intro h
    rw [dispatch_history_some, if_pos h]
  · intro h0 h1
    rw [dispatch_history_some, if_neg (by omega)]
    refine ⟨rfl, ?_⟩
    rw [List.length_drop]
    omega

/-- C5 witness: `history 51` errors and prints nothing; `history 1` on a
two-entry log prints exactly the last entry. -/
theorem c5_witness :
    dispatch env0 none ["x1", "x2"] Target.term (some "history") (some "51")
        none none none []
      = ⟨none, [Ev.err], none, none, true⟩
    ∧ (dispatch env0 none ["x1", "x2"] Target.term (some "history") (some "1")
        none none none []).evs
      = histPrint Target.term
          (["x1", "x2"].drop (["x1", "x2"].length - (atoiM "1").toNat)) :=
  ⟨(c5_amended_atoi_range env0 none ["x1", "x2"] Target.term "51" []).1 (by decide),
   ((c5_amended_atoi_range env0 none ["x1", "x2"] Target.term "1" []).2
      (by decide) (by decide)).1⟩

/-- C8 amended: an empty input line (or one consisting solely of a line
terminator) is recorded to history as a single-space placeholder, produces
zero command tokens, and the dispatch step does nothing — no child, no exit,
path untouched — but it is not silent: the fixed error message is reported
before the loop continues to the next prompt. -/
theorem c8_amended_blank_line (env : Env) (st : Shell) (raw : String)
    (hb : isBlank raw = true) :
    recordOf raw = " "
    ∧ (stepLine env st raw).st.hist = histAdd st.hist " "
    ∧ (stepLine env st raw).evs = [Ev.err]
    ∧ (stepLine env st raw).child = none
    ∧ (stepLine env st raw).exited = none
    ∧ (stepLine env st raw).st.path = st.path := by
  have hrec : recordOf raw = " " := by simp [recordOf, hb]
  have htk := blank_no_tokens raw hb
  have hp : parseL raw = ⟨List.replicate 6 none, [], true, []⟩ := by
    rw [parseL, htk]
    rfl
  have ha : argsOf raw = ⟨none, none, none, none, none, none⟩ := by
    rw [argsOf, hp]
    rfl
  have hd : dispatchOf env st raw = ⟨st.path, [], none, none, true⟩ := by
    rw [dispatchOf, hp, ha]
    rfl
  refine ⟨hrec, ?_, ?_, ?_, ?_, ?_⟩
  · rw [stepLine_st_hist, hrec]
  · rw [stepLine_evs, hp, hd]
    rfl
  · rw [stepLine_child, hd]
  · rw [stepLine_exited, hd]
  · rw [stepLine_st_path, hd]

/-- C8 witness: the bare newline line. -/
theorem c8_witness :
    recordOf "\n" = " "
    ∧ (stepLine env0 shell0 "\n").st.hist = histAdd shell0.hist " "
    ∧ (stepLine env0 shell0 "\n").evs = [Ev.err]
    ∧ (stepLine env0 shell0 "\n").child = none
    ∧ (stepLine env0 shell0 "\n").exited = none
    ∧ (stepLine env0 shell0 "\n").st.path = shell0.path :=
  c8_amended_blank_line env0 shell0 "\n" (by decide)

end Djsh
